import Mathlib

/-!
Shallow embedding of `ct2mcnp` (`src/ct2mcnp/generator.py`): a converter from
volumetric CT scans to MCNP input decks.  Intensities (HU values) and threshold
boundaries are modeled as `Int`; physical lengths (spacings, surface
coordinates) as `ℚ`; emitted deck text as `String` / `List Char`.
-/

namespace CT2MCNP

/-! ## Definitions: shallow embedding of generator.py -/

/-- Python `min(list)` over HU boundaries (`generator.py:17`).  Python raises on
an empty list; the claims only use nonempty boundary lists, so the `[]` value
is irrelevant filler. -/
def pyMin : List Int → Int
  | [] => 0
  | x :: xs => xs.foldl min x

/-- Python `max(list)` over HU boundaries (`generator.py:17`). -/
def pyMax : List Int → Int
  | [] => 0
  | x :: xs => xs.foldl max x

/-- Python `np.clip(v, lo, hi)` = `np.minimum(np.maximum(v, lo), hi)` applied to
one sample (`generator.py:17`). -/
def clip (v lo hi : Int) : Int := min (max v lo) hi

/-- Helper for `dedupFirst`: keep elements not seen before. -/
def dedupFirstAux (seen : List Int) : List Int → List Int
  | [] => []
  | x :: xs => if x ∈ seen then dedupFirstAux seen xs else x :: dedupFirstAux (x :: seen) xs

/-- The statements `hu_interval = list(set(raw))` and
`hu_interval.sort(key=raw_hu_interval.index)` at `generator.py:31-32`:
unique values ordered by first occurrence. -/
def dedupFirst (l : List Int) : List Int := dedupFirstAux [] l

/-- The binary-search loop of Python `bisect_left(a, x)`.  The `fuel` argument
bounds the iteration count of the `while lo < hi` loop (any `fuel ≥ hi - lo`
gives the exact loop behavior); it keeps the definition structurally
recursive and kernel-evaluable. -/
def bisectLeftAux (a : List Int) (x : Int) : Nat → Nat → Nat → Nat
  | 0, lo, _ => lo
  | fuel + 1, lo, hi =>
    if lo < hi then
      if a.getD ((lo + hi) / 2) 0 < x then bisectLeftAux a x fuel ((lo + hi) / 2 + 1) hi
      else bisectLeftAux a x fuel lo ((lo + hi) / 2)
    else lo

/-- Python `bisect.bisect_left(a, x)` (used at `generator.py:39`). -/
def bisect_left (a : List Int) (x : Int) : Nat := bisectLeftAux a x a.length 0 a.length

/-- Classification of one voxel (`generator.py:39-40`):
`index = bisect_left(hu_interval, v); if index == 0: index = 1`. -/
def huToIndex (hu : List Int) (v : Int) : Nat :=
  if bisect_left hu v = 0 then 1 else bisect_left hu v

/-- The method `_convert_hu_to_material` over the flattened (already clipped)
array (`generator.py:35-43`); `np.nditer` visits elements in C memory order. -/
def convertHuToMaterial (hu : List Int) (arr : List Int) : List Nat :=
  arr.map (huToIndex hu)

/-- The clipping step of `CTVoxel.__init__` (`generator.py:17`) over the
flattened array. -/
def clipArray (hu : List Int) (arr : List Int) : List Int :=
  arr.map (fun v => clip v (pyMin hu) (pyMax hu))

/-- Per-axis data produced by `Geometry._build_phantom_cell_surfaces`
(`generator.py:135-189`): the two plane coordinates, the lattice fill range
bounds, and the `phantom_limit` / `phantom_origin` entries. -/
structure PhantomAxis where
  surfHi : ℚ
  surfLo : ℚ
  fillLo : ℤ
  fillHi : ℤ
  limit : ℚ
  origin : ℚ
deriving DecidableEq

/-- Per-axis body of `_build_phantom_cell_surfaces` (`generator.py:140-188`).
The source repeats this block verbatim for axes 0, 1, 2; `half = size // 2`.
Even axis: planes at `(size+1)*spacing` and `(-size+1)*spacing`, fill range
written as `-half+1 : half`.  Odd axis: planes at `size*spacing` and
`-size*spacing`, fill range written as `half : half` (the f-string at lines
154/170/186 has no minus sign on the lower bound). -/
def phantomAxis (size : Nat) (spacing : ℚ) : PhantomAxis :=
  if size % 2 = 0 then
    { surfHi := ((size : ℚ) + 1) * spacing
      surfLo := (-(size : ℚ) + 1) * spacing
      fillLo := -((size : ℤ) / 2) + 1
      fillHi := (size : ℤ) / 2
      limit := ((size : ℚ) + 1) * spacing
      origin := (-(size : ℚ) + 1) * spacing }
  else
    { surfHi := (size : ℚ) * spacing
      surfLo := -(size : ℚ) * spacing
      fillLo := (size : ℤ) / 2
      fillHi := (size : ℤ) / 2
      limit := (size : ℚ) * spacing
      origin := -(size : ℚ) * spacing }

/-- Python/numpy `max` over the per-axis products, as in
`(self.size * self.spacing).max()`. -/
def qMax : List ℚ → ℚ
  | [] => 0
  | x :: xs => xs.foldl max x

/-- The value computed by `Geometry._build_world_surface` (`generator.py:191-194`):
`world_radius = (self.size * self.spacing).max() + 100`, for
broadcast-compatible (equal-length) vectors, the only case that reaches this
computation; `geometryInit` models the numpy broadcast ValueError for
mismatched lengths. -/
def worldRadius (size : List Nat) (spacing : List ℚ) : ℚ :=
  qMax (List.zipWith (fun (n : Nat) (s : ℚ) => (n : ℚ) * s) size spacing) + 100

/-- A numpy array: a shape together with the flat data in C memory order. -/
structure NpArray (α : Type) where
  shape : List Nat
  data : List α
deriving DecidableEq

/-- The volumetric image as exposed by the external image library: `GetSize()`
(per-axis voxel counts, (x, y, z) order), `GetSpacing()` (physical voxel
spacing), and the intensity buffer.  The library guarantees that both
vectors have the dimension of the image, recorded by `sameDim`. -/
structure CTImage where
  size : List Nat
  spacingRaw : List ℚ
  voxels : List Int
  sameDim : size.length = spacingRaw.length

/-- The call `sitk.GetArrayFromImage(ct)` (`generator.py:12`): SimpleITK returns
a numpy array whose shape is the image size reversed ((z, y, x) for a 3-D
image), per the documented indexing convention of the library. -/
def getArrayFromImage (ct : CTImage) : NpArray Int :=
  { shape := ct.size.reverse, data := ct.voxels }

/-- The call `np.clip(self.array, min(...), max(...))` (`generator.py:17`):
elementwise, shape preserved. -/
def clipNp (hu : List Int) (a : NpArray Int) : NpArray Int :=
  { shape := a.shape, data := clipArray hu a.data }

/-- The method `_convert_hu_to_material` (`generator.py:35-43`): `np.zeros_like`
of the array filled elementwise, so the shape is that of the (clipped)
array. -/
def convertNp (hu : List Int) (a : NpArray Int) : NpArray Nat :=
  { shape := a.shape, data := convertHuToMaterial hu a.data }

/-- The two arrays built by `CTVoxel.__init__` (`generator.py:12-18`): the
clipped intensity array and the material index map. -/
def ctVoxelArrays (ct : CTImage) (hu : List Int) : NpArray Int × NpArray Nat :=
  (clipNp hu (getArrayFromImage ct),
   convertNp hu (clipNp hu (getArrayFromImage ct)))

/-- Whitespace emitted between fill values: spaces and newlines only. -/
def isWS (c : Char) : Bool := c == ' ' || c == '\n'

/-- Decimal digit characters. -/
def digitChar (d : Nat) : Char :=
  (['0', '1', '2', '3', '4', '5', '6', '7', '8', '9']).getD d '9'

/-- Decimal digits of `n`, least significant first.  `fuel` bounds the digit
loop (any `fuel ≥ n` gives the exact digits); it keeps the recursion
structural so the kernel can evaluate it. -/
def natDigitsRev : Nat → Nat → List Nat
  | 0, n => [n]
  | fuel + 1, n => if n < 10 then [n] else n % 10 :: natDigitsRev fuel (n / 10)

/-- Python `str(n)` for a nonnegative integer, as a character list (used by
the fill-value writes at `generator.py:106` and by the cell cards). -/
def natRepr (n : Nat) : List Char := ((natDigitsRev n n).reverse).map digitChar

/-- Python `str(n)` as a `String`. -/
def natStr (n : Nat) : String := String.mk (natRepr n)

/-- Python `str` of a possibly negative integer (fill-range bounds). -/
def intRepr (i : Int) : String :=
  if i < 0 then "-" ++ natStr i.natAbs else natStr i.natAbs

/-- Re-parsing one whitespace-delimited token as a decimal number (the
round-trip direction of claim C3). -/
def parseNat (cs : List Char) : Nat := cs.foldl (fun a c => a * 10 + (c.toNat - 48)) 0

/-- Value of a least-significant-first digit list. -/
def ofDigitsRev (L : List Nat) : Nat := L.foldr (fun d acc => d + 10 * acc) 0

/-- Splitting a character stream on whitespace, dropping empty tokens: the
re-parsing step of claim C3 (splitting on whitespace across line wraps). -/
def tokenize (cs : List Char) : List (List Char) :=
  match cs with
  | [] => []
  | c :: rest =>
    if isWS c then tokenize rest
    else (c :: rest.takeWhile (fun d => !isWS d)) :: tokenize (rest.dropWhile (fun d => !isWS d))
termination_by cs.length
decreasing_by
  · simp only [List.length_cons]
    omega
  · simp only [List.length_cons]
    refine Nat.lt_succ_of_le ?_
    induction rest with
    | nil => simp
    | cons x xs ih =>
        rw [List.dropWhile_cons]
        split
        · exact le_trans ih (Nat.le_succ _)
        · exact le_refl _

/-- Separator written after fill value number `acc` (`generator.py:107-112`):
newline plus a 4-space indent at a wrap of 20 before the last value, a bare
newline at the last value (whether or not it falls on a wrap), else nothing.
`total` is `np.prod(self.size)`, the number of array elements. -/
def sepAfter (acc total : Nat) : List Char :=
  if acc % 20 = 0 ∧ acc ≠ total then ['\n', ' ', ' ', ' ', ' ']
  else if acc % 20 = 0 ∧ acc = total then ['\n']
  else if acc = total then ['\n'] else []

/-- The fill-list loop of `Geometry.to_file` (`generator.py:103-114`): for
each element in C traversal order, write a space then the value, then the
separator; the accumulator starts at 1. -/
def fillGo (total : Nat) : List Nat → Nat → List Char
  | [], _ => []
  | v :: rest, acc => ' ' :: (natRepr v ++ (sepAfter acc total ++ fillGo total rest (acc + 1)))

/-- The full fill-list text for a flattened Material-Index Volume. -/
def fillListText (vs : List Nat) : List Char := fillGo vs.length vs 1

/-- The Python exception kinds the generator can raise.  The spec names
`assertionError` ConfigurationError, `keyError` MaterialKeyError and
`indexError` DimensionalityError; `valueError` is the numpy broadcast
error. -/
inductive PyErr where
  | assertionError
  | keyError
  | attributeError
  | indexError
  | valueError
deriving DecidableEq

/-- Python dict key access (KeyError when the key is absent). -/
def pyGet {α : Type} : Option α → Except PyErr α
  | some v => Except.ok v
  | none => Except.error PyErr.keyError

/-- Python sequence indexing (IndexError when out of range). -/
def pyIndex {α : Type} (l : List α) (i : Nat) : Except PyErr α :=
  match l[i]? with
  | some v => Except.ok v
  | none => Except.error PyErr.indexError

/-- Constructor test for `Except`. -/
def exceptOk {ε α : Type} : Except ε α → Bool
  | Except.ok _ => true
  | Except.error _ => false

/-- The call `np.around(q, 3)` (`generator.py:13`).  numpy rounds halves to even
while Mathlib `round` rounds halves up; the difference arises only at exact
0.0005-ties, which no claim exercises. -/
def around3 (q : ℚ) : ℚ := ((round (q * 1000) : ℤ) : ℚ) / 1000

/-- Python `.3f` f-string formatting of a number. -/
def fmtQ3 (q : ℚ) : String :=
  let n : ℤ := round (q * 1000)
  let a : Nat := n.natAbs
  let frac : Nat := a % 1000
  (if n < 0 then "-" else "") ++ natStr (a / 1000) ++ "."
    ++ (if frac < 10 then "00" else if frac < 100 then "0" else "") ++ natStr frac

/-- Python `str` of a configured number: an integer prints without a decimal
point; the exact float repr is irrelevant to every claim. -/
def ratStr (x : ℚ) : String := if x.den = 1 then intRepr x.num else fmtQ3 x

/-- A scalar configuration value. -/
inductive PyAtom where
  | i (n : Int)
  | q (x : ℚ)
  | s (t : String)
deriving DecidableEq

/-- A scalar-or-list configuration value (the argument type of
`_list_to_str`, `generator.py:287-291`). -/
inductive PyVal where
  | atom (a : PyAtom)
  | list (xs : List PyAtom)
deriving DecidableEq

/-- Python `str` of a scalar config value. -/
def atomStr : PyAtom → String
  | PyAtom.i n => intRepr n
  | PyAtom.q x => ratStr x
  | PyAtom.s t => t

/-- The helper `_list_to_str` (`generator.py:287-291`): space-join the elements
of a list, `str` anything else. -/
def listToStr : PyVal → String
  | PyVal.list xs => String.intercalate " " (xs.map atomStr)
  | PyVal.atom a => atomStr a

/-- The configuration sub-dict of one material; every field access can raise
KeyError, so fields are `Option`s. -/
structure MaterialEntry where
  hu_interval : Option (List Int)
  nucleon : Option (List Nat)
  fraction : Option (List ℚ)
  density : Option ℚ
deriving DecidableEq

/-- The four tables built by `_parse_material` (`generator.py:20-33`). -/
structure MaterialTables where
  hu_interval : List Int
  element_table : List (Nat × List (Nat × ℚ))
  density_table : List (Nat × ℚ)
  keys : List Nat
deriving DecidableEq

/-- The accumulation loop of `_parse_material` (`generator.py:26-30`), in
configuration order: concatenated raw intervals, element table, density
table, key list. -/
def parseMaterialAux :
    List (Nat × MaterialEntry)
      → Except PyErr (List Int × List (Nat × List (Nat × ℚ)) × List (Nat × ℚ) × List Nat)
  | [] => Except.ok ([], [], [], [])
  | (i, m) :: rest => do
      let hu ← pyGet m.hu_interval
      let nuc ← pyGet m.nucleon
      let fr ← pyGet m.fraction
      let d ← pyGet m.density
      let r ← parseMaterialAux rest
      Except.ok (hu ++ r.1, (i, List.zip nuc fr) :: r.2.1, (i, d) :: r.2.2.1, i :: r.2.2.2)

/-- The method `_parse_material` (`generator.py:20-33`): run the loop, then
de-duplicate the concatenated intervals preserving first-seen order. -/
def parseMaterial (cfg : List (Nat × MaterialEntry)) : Except PyErr MaterialTables := do
  let r ← parseMaterialAux cfg
  Except.ok { hu_interval := dedupFirst r.1, element_table := r.2.1,
              density_table := r.2.2.1, keys := r.2.2.2 }

/-- The state a `CTVoxel` instance holds after `__init__` (`generator.py:11-18`). -/
structure CTVoxelState where
  arr : NpArray Int
  index_map : NpArray Nat
  spacing : List ℚ
  size : List Nat
  tables : MaterialTables
deriving DecidableEq

/-- The constructor `CTVoxel.__init__` (`generator.py:11-18`): read the array,
divide the spacing by 20 and round to 3 decimals, parse the material config,
clip, and classify. -/
def ctVoxelInit (ct : CTImage) (cfg : List (Nat × MaterialEntry)) :
    Except PyErr CTVoxelState := do
  let t ← parseMaterial cfg
  Except.ok { arr := clipNp t.hu_interval (getArrayFromImage ct)
              index_map := convertNp t.hu_interval (clipNp t.hu_interval (getArrayFromImage ct))
              spacing := ct.spacingRaw.map (fun sp => around3 (sp / 20))
              size := ct.size
              tables := t }

/-- Everything the three `_build_*` calls of `Geometry.__init__` compute
(`generator.py:92-94`): the unit-cell spacings, the three phantom axes, and
the world sphere radius. -/
structure GeomState where
  s0 : ℚ
  s1 : ℚ
  s2 : ℚ
  ax0 : PhantomAxis
  ax1 : PhantomAxis
  ax2 : PhantomAxis
  radius : ℚ
deriving DecidableEq

/-- numpy broadcast compatibility of two 1-D shapes: equal lengths, or either
length 1. -/
def npBroadcastOk (n m : Nat) : Bool := decide (n = m ∨ n = 1 ∨ m = 1)

/-- Surface building in `Geometry.__init__` (`generator.py:92-94,124-194`):
`_build_base_cell_surfaces` reads spacing components 0..2,
`_build_phantom_cell_surfaces` reads size and spacing components 0..2, and
`_build_world_surface` evaluates `self.size * self.spacing`, whose numpy
broadcast raises ValueError for incompatible 1-D lengths.  No explicit
validation exists; the failure modes are an IndexError from a too-short
vector and that broadcast ValueError. -/
def geometryInit (size : List Nat) (spacing : List ℚ) : Except PyErr GeomState := do
  let s0 ← pyIndex spacing 0
  let s1 ← pyIndex spacing 1
  let s2 ← pyIndex spacing 2
  let n0 ← pyIndex size 0
  let n1 ← pyIndex size 1
  let n2 ← pyIndex size 2
  if npBroadcastOk size.length spacing.length then
    Except.ok { s0 := s0, s1 := s1, s2 := s2
                ax0 := phantomAxis n0 s0, ax1 := phantomAxis n1 s1, ax2 := phantomAxis n2 s2
                radius := worldRadius size spacing }
  else Except.error PyErr.valueError

/-- The full `Geometry` instance state (`generator.py:82-94`): mode string
(comma-joined particle tokens), voxel-derived fields, and the built
surfaces. -/
structure GeometryState where
  modeStr : String
  size : List Nat
  spacing : List ℚ
  index_map : NpArray Nat
  keys : List Nat
  element_table : List (Nat × List (Nat × ℚ))
  density_table : List (Nat × ℚ)
  geom : GeomState
deriving DecidableEq

/-- The constructor `Geometry.__init__` (`generator.py:82-94`). -/
def geometryBuild (voxel : CTVoxelState) (mode : List String) :
    Except PyErr GeometryState := do
  let g ← geometryInit voxel.size voxel.spacing
  Except.ok { modeStr := String.intercalate "," mode
              size := voxel.size, spacing := voxel.spacing
              index_map := voxel.index_map, keys := voxel.tables.keys
              element_table := voxel.tables.element_table
              density_table := voxel.tables.density_table
              geom := g }

/-- The field `base_cell_geom` (`generator.py:133`). -/
def baseCellGeomStr : String := "-11 12 -13 14 -15 16"

/-- The field `phantom_cell_geom` (`generator.py:189`). -/
def phantomCellGeomStr : String := "-111 112 -113 114 -115 116"

/-- The `fill=` range directive accumulated across
`_build_phantom_cell_surfaces` (`generator.py:139,146,154,162,170,178,186`). -/
def fillDirective (g : GeomState) : String :=
  "fill=" ++ (intRepr g.ax0.fillLo ++ (":" ++ (intRepr g.ax0.fillHi ++ (" "
    ++ (intRepr g.ax1.fillLo ++ (":" ++ (intRepr g.ax1.fillHi ++ (" "
    ++ (intRepr g.ax2.fillLo ++ (":" ++ intRepr g.ax2.fillHi))))))))))

/-- The `base_cell_surfaces` lines (`generator.py:124-132`). -/
def baseCellSurfacesText (g : GeomState) : String :=
  "11    px    " ++ (fmtQ3 g.s0 ++ ("\n" ++ ("12    px    " ++ (fmtQ3 (-g.s0)
    ++ ("\n" ++ ("13    py    " ++ (fmtQ3 g.s1 ++ ("\n" ++ ("14    py    "
    ++ (fmtQ3 (-g.s1) ++ ("\n" ++ ("15    pz    " ++ (fmtQ3 g.s2 ++ ("\n"
    ++ ("16    pz    " ++ (fmtQ3 (-g.s2) ++ "\n"))))))))))))))))

/-- The `phantom_cell_surfaces` lines (`generator.py:141-188`). -/
def phantomSurfacesText (g : GeomState) : String :=
  "111  px  " ++ (fmtQ3 g.ax0.surfHi ++ ("\n" ++ ("112  px  " ++ (fmtQ3 g.ax0.surfLo
    ++ ("\n" ++ ("113  py  " ++ (fmtQ3 g.ax1.surfHi ++ ("\n" ++ ("114  py  "
    ++ (fmtQ3 g.ax1.surfLo ++ ("\n" ++ ("115  pz  " ++ (fmtQ3 g.ax2.surfHi
    ++ ("\n" ++ ("116  pz  " ++ (fmtQ3 g.ax2.surfLo ++ "\n"))))))))))))))))

/-- The `word_cell_surface` line (`generator.py:194`). -/
def worldSurfaceText (g : GeomState) : String := "1000  so  " ++ (ratStr g.radius ++ "\n")

/-- Cell-card loop of `Geometry.to_file` (`generator.py:97-100`): per key in
table order, the material cell card and its complement void cell.  The
density lookup inside the f-string raises KeyError before the line of that
entry is written; text of earlier entries stays written. -/
def geomCellsAux (dens : List (Nat × ℚ)) (modeStr : String) :
    List Nat → String × Option PyErr
  | [] => ("", none)
  | i :: rest =>
      match List.lookup i dens with
      | none => ("", some PyErr.keyError)
      | some d =>
          match geomCellsAux dens modeStr rest with
          | (t, e) =>
              (natStr i ++ ("  " ++ (natStr i ++ ("  " ++ (ratStr d ++ ("  "
                ++ (baseCellGeomStr ++ ("  u=" ++ (natStr i ++ ("  imp:"
                ++ (modeStr ++ ("=1\n"
                ++ ("88" ++ (natStr i ++ ("  0  #" ++ (natStr i ++ ("  u="
                ++ (natStr i ++ ("  imp:" ++ (modeStr ++ ("=1\n" ++ t)))))))))))))))))))), e)

/-- The method `Geometry.to_file` (`generator.py:96-122`): cell cards, lattice
cell with fill directive and the wrapped fill list, phantom/world/void
cells, a blank line, then the three surface groups. -/
def geomWrite (gs : GeometryState) : String × Option PyErr :=
  match geomCellsAux gs.density_table gs.modeStr gs.keys with
  | (t, some e) => (t, some e)
  | (t, none) =>
      let latPart := "998  0  " ++ baseCellGeomStr ++ " u=999 imp:" ++ gs.modeStr
        ++ "=1\n" ++ "     lat=1  " ++ fillDirective gs.geom ++ "\n    "
      let tailPart := "999  0  " ++ phantomCellGeomStr ++ "  fill=999 imp:"
        ++ gs.modeStr ++ "=1\n"
        ++ "1000  1  -0.00129  -1000 #999 imp:" ++ gs.modeStr ++ "=1\n"
        ++ "9999  0  1000  imp:" ++ gs.modeStr ++ "=0\n" ++ "\n"
        ++ baseCellSurfacesText gs.geom ++ phantomSurfacesText gs.geom
        ++ worldSurfaceText gs.geom
      (t ++ latPart ++ String.mk (fillListText gs.index_map.data) ++ tailPart, none)

/-- The method `Material._parse_elements_dict` (`generator.py:206-210`). -/
def parseElementsDict (els : List (Nat × ℚ)) : String :=
  String.join (els.map (fun nf => "     " ++ (natStr nf.1 ++ (" " ++ (ratStr nf.2 ++ "\n")))))

/-- The method `Material.to_file` (`generator.py:201-204`): a header line then
the indented nuclide/fraction lines, per material index in table order. -/
def materialWrite (et : List (Nat × List (Nat × ℚ))) : String :=
  String.join (et.map (fun ie => "M" ++ (natStr ie.1 ++ ("\n" ++ parseElementsDict ie.2))))

/-- A source-config value: a plain scalar/list directive, or a dict denoting
a distribution with `si`/`sp` tables. -/
inductive SourceVal where
  | plain (v : PyVal)
  | dist (si : List PyAtom) (sp : List PyAtom)
deriving DecidableEq

/-- The `Source` instance state.  `si_sp_str = none` models the attribute never
having been assigned (the early return at `generator.py:216-217`). -/
structure SourceState where
  source_str : String
  si_sp_str : Option String
deriving DecidableEq

/-- The method `Source._parse_si_sp` (`generator.py:233-237`). -/
def parseSiSp (si sp : List PyAtom) (id : Nat) : String :=
  "#     SI" ++ (natStr id ++ ("     SP" ++ (natStr id ++ ("\n"
    ++ String.join ((List.zip si sp).map
        (fun r => "     " ++ (atomStr r.1 ++ ("     " ++ (atomStr r.2 ++ "\n")))))))))

/-- The loop of `Source.__init__` over config items (`generator.py:221-227`):
dict values get a numbered distribution reference and an si/sp table, other
values a direct directive line. -/
def sourceInitAux : List (String × SourceVal) → String → String → Nat → String × String
  | [], acc, siAcc, _ => (acc, siAcc)
  | (k, SourceVal.dist si sp) :: rest, acc, siAcc, id =>
      sourceInitAux rest (acc ++ ("     " ++ (k ++ ("=D" ++ (natStr (id + 1) ++ "\n")))))
        (siAcc ++ parseSiSp si sp (id + 1)) (id + 1)
  | (k, SourceVal.plain v) :: rest, acc, siAcc, id =>
      sourceInitAux rest (acc ++ ("     " ++ (k ++ ("=" ++ (listToStr v ++ "\n")))))
        siAcc id

/-- The constructor `Source.__init__` (`generator.py:214-227`): starts from the
bare `SDEF` line; with an absent source config it returns before ever
assigning `si_sp_str`. -/
def sourceInit : Option (List (String × SourceVal)) → SourceState
  | none => { source_str := "SDEF\n", si_sp_str := none }
  | some cfg =>
      { source_str := (sourceInitAux cfg "SDEF\n" "" 0).1
        si_sp_str := some (sourceInitAux cfg "SDEF\n" "" 0).2 }

/-- The method `Source.to_file` (`generator.py:229-231`): writes `source_str`,
then reads `si_sp_str`, an AttributeError (after `source_str` is already in
the file) when that attribute was never set. -/
def sourceWrite (s : SourceState) : String × Option PyErr :=
  match s.si_sp_str with
  | none => (s.source_str, some PyErr.attributeError)
  | some t => (s.source_str ++ t, none)

/-- The config sub-dict of one tally entry (`generator.py:255-265`). -/
structure TallyEntry where
  particle : String
  de : Option (List PyAtom)
  df : Option (List PyAtom)
  fm : Option PyVal
deriving DecidableEq

/-- The `Tally` instance state: `off` models the early return on an absent
tally config (`generator.py:243-244`). -/
inductive TallyState where
  | off
  | on (config : List (Nat × TallyEntry)) (size : List Nat) (origin : List ℚ) (limit : List ℚ)
deriving DecidableEq

/-- The constructor `Tally.__init__` (`generator.py:241-249`): stores the config
and, when present, the size vector and the phantom box origin/limit lists. -/
def tallyInit (gs : GeometryState) (cfg : Option (List (Nat × TallyEntry))) : TallyState :=
  match cfg with
  | none => TallyState.off
  | some c =>
      TallyState.on c gs.size
        [gs.geom.ax0.origin, gs.geom.ax1.origin, gs.geom.ax2.origin]
        [gs.geom.ax0.limit, gs.geom.ax1.limit, gs.geom.ax2.limit]

/-- The method `Tally._parse_de_df` (`generator.py:267-271`). -/
def parseDeDf (de df : List PyAtom) (idStr : String) : String :=
  "#     DE" ++ (idStr ++ ("     DF" ++ (idStr ++ ("\n"
    ++ String.join ((List.zip de df).map
        (fun r => "     " ++ (atomStr r.1 ++ ("     " ++ (atomStr r.2 ++ "\n")))))))))

/-- The text chunks written for one tally entry (`generator.py:255-265`):
four mesh lines, then the DE/DF block exactly when both the de and df keys
are present, then the FM line when present. -/
def tallyEntryChunks (size : List Nat) (origin limit : List ℚ) (id : Nat) (v : TallyEntry) :
    List String :=
  ["fmesh" ++ (natStr id ++ ("4:" ++ (v.particle ++ (" geom=XYZ origin="
      ++ (fmtQ3 (origin.getD 0 0) ++ (" " ++ (fmtQ3 (origin.getD 1 0) ++ (" "
      ++ (fmtQ3 (origin.getD 2 0) ++ "\n"))))))))),
   "     imesh=" ++ (fmtQ3 (limit.getD 0 0) ++ (" iints=" ++ (natStr (size.getD 0 0) ++ "\n"))),
   "     jmesh=" ++ (fmtQ3 (limit.getD 1 0) ++ (" jints=" ++ (natStr (size.getD 1 0) ++ "\n"))),
   "     kmesh=" ++ (fmtQ3 (limit.getD 2 0) ++ (" kints=" ++ (natStr (size.getD 2 0) ++ "\n")))]
  ++ ((match v.de, v.df with
      | some de, some df => [parseDeDf de df (natStr id ++ "4")]
      | _, _ => [])
  ++ (match v.fm with
      | some fm => ["FM" ++ (natStr id ++ ("4  " ++ (listToStr fm ++ "\n")))]
      | none => []))

/-- The method `Tally.to_file` (`generator.py:251-265`). -/
def tallyWrite (t : TallyState) : String × Option PyErr :=
  match t with
  | TallyState.off => ("", none)
  | TallyState.on cfg size origin limit =>
      (String.join (cfg.map
        (fun iv => String.join (tallyEntryChunks size origin limit iv.1 iv.2))), none)

/-- The class `OutControl` (`generator.py:274-284`): one directive line per key,
nothing when the config is absent. -/
def outControlText : Option (List (String × PyVal)) → String
  | none => ""
  | some cfg => String.join (cfg.map (fun kv => kv.1 ++ (" " ++ (listToStr kv.2 ++ "\n"))))

/-- The run configuration (`generator.py:56-67`): Python key presence is
modeled by `Option`. -/
structure Config where
  material : Option (List (Nat × MaterialEntry))
  mode : Option (List String)
  source : Option (List (String × SourceVal))
  tally : Option (List (Nat × TallyEntry))
  outcontrol : Option (List (String × PyVal))
deriving DecidableEq

/-- The assembled module state after `init_MC_module`. -/
structure MCState where
  voxel : CTVoxelState
  geometry : GeometryState
  sourceSt : SourceState
  tallySt : TallyState
  outText : String
deriving DecidableEq

/-- The method `MCNPGenerator.init_MC_module` (`generator.py:56-67`): asserts
that `material` and `mode` are present (AssertionError, the ConfigurationError
of the spec, otherwise); the `source`/`tally`/`outcontrol` keys default to an
absent (`None`) section; then the components are built in dependency order. -/
def initMCModule (ct : CTImage) (cfg : Config) : Except PyErr MCState :=
  match cfg.material, cfg.mode with
  | some mat, some mode => do
      let voxel ← ctVoxelInit ct mat
      let gs ← geometryBuild voxel mode
      Except.ok { voxel := voxel, geometry := gs
                  sourceSt := sourceInit cfg.source
                  tallySt := tallyInit gs cfg.tally
                  outText := outControlText cfg.outcontrol }
  | _, _ => Except.error PyErr.assertionError

/-- Sequential composition of file writes: a raised exception aborts the run
keeping the text already written. -/
def wseq : String × Option PyErr → (String × Option PyErr) → String × Option PyErr
  | (t, some e), _ => (t, some e)
  | (t, none), (u, e) => (t ++ u, e)

/-- The method `MCNPGenerator.to_file` (`generator.py:69-79`): the fixed
section order with its comment headers. -/
def mcnpToFile (st : MCState) : String × Option PyErr :=
  wseq ("c Geometry\n", none)
    (wseq (geomWrite st.geometry)
      (wseq ("\n", none)
        (wseq ("c Data\n", none)
          (wseq (materialWrite st.voxel.tables.element_table, none)
            (wseq (sourceWrite st.sourceSt)
              (wseq (tallyWrite st.tallySt)
                (wseq (st.outText, none) ("\n", none))))))))

/-- The method `MCNPGenerator.run` (`generator.py:52-54`): init, then write.
A failure during init happens before the output file is opened, so the
written text is empty. -/
def mcnpRun (ct : CTImage) (cfg : Config) : String × Option PyErr :=
  match initMCModule ct cfg with
  | Except.error e => ("", some e)
  | Except.ok st => mcnpToFile st

/-- A one-voxel test image with physical spacing 20 (so unit spacing after the
/20 conversion). -/
def ctEx : CTImage :=
  { size := [1, 1, 1], spacingRaw := [20, 20, 20], voxels := [0], sameDim := rfl }

/-- A complete material entry. -/
def matEntryEx : MaterialEntry :=
  { hu_interval := some [-1000, 0, 3000], nucleon := some [1001],
    fraction := some [1], density := some (17 / 10) }

/-- A material entry whose `density` key is missing. -/
def matEntryNoDensity : MaterialEntry :=
  { hu_interval := some [-1000, 0, 3000], nucleon := some [1001],
    fraction := some [1], density := none }

/-- A run configuration with `material` and `mode` but no `source`, `tally`
or `outcontrol` keys. -/
def cfgNoSourceTally : Config :=
  { material := some [(1, matEntryEx)], mode := some ["p"],
    source := none, tally := none, outcontrol := none }

/-- A run configuration whose only material entry lacks `density`. -/
def cfgMissingDensity : Config :=
  { material := some [(1, matEntryNoDensity)], mode := some ["p"],
    source := none, tally := none, outcontrol := none }

/-- A run configuration missing the `mode` key. -/
def cfgMissingMode : Config :=
  { material := some [(1, matEntryEx)], mode := none,
    source := none, tally := none, outcontrol := none }

/-- Prefix test on character lists. -/
def startsWithCL : List Char → List Char → Bool
  | [], _ => true
  | _ :: _, [] => false
  | p :: ps, c :: cs => p == c && startsWithCL ps cs

/-- A deck line that begins a DE/DF energy-response block. -/
def isDeDfHeader (s : String) : Bool := startsWithCL ("#     DE".data) s.data

/-! ## Theorems -/

theorem foldl_min_le_init {α : Type} [LinearOrder α] (l : List α) (x : α) :
    l.foldl min x ≤ x := by
  induction l generalizing x with
  | nil => simp
  | cons y ys ih =>
      simp only [List.foldl_cons]
      exact le_trans (ih (min x y)) (min_le_left x y)

theorem foldl_min_le_mem {α : Type} [LinearOrder α] (l : List α) (x y : α) (hy : y ∈ l) :
    l.foldl min x ≤ y := by
  induction l generalizing x with
  | nil => cases hy
  | cons z zs ih =>
      simp only [List.foldl_cons]
      rcases List.mem_cons.mp hy with h | h
      · subst h
        exact le_trans (foldl_min_le_init zs (min x y)) (min_le_right x y)
      · exact ih (min x z) h

theorem init_le_foldl_max {α : Type} [LinearOrder α] (l : List α) (x : α) :
    x ≤ l.foldl max x := by
  induction l generalizing x with
  | nil => simp
  | cons y ys ih =>
      simp only [List.foldl_cons]
      exact le_trans (le_max_left x y) (ih (max x y))

theorem mem_le_foldl_max {α : Type} [LinearOrder α] (l : List α) (x y : α) (hy : y ∈ l) :
    y ≤ l.foldl max x := by
  induction l generalizing x with
  | nil => cases hy
  | cons z zs ih =>
      simp only [List.foldl_cons]
      rcases List.mem_cons.mp hy with h | h
      · subst h
        exact le_trans (le_max_right x y) (init_le_foldl_max zs (max x y))
      · exact ih (max x z) h

theorem foldl_max_mem_or {α : Type} [LinearOrder α] (l : List α) (x : α) :
    l.foldl max x = x ∨ l.foldl max x ∈ l := by
  induction l generalizing x with
  | nil => left; rfl
  | cons z zs ih =>
      simp only [List.foldl_cons]
      rcases ih (max x z) with h | h
      · rcases max_cases x z with ⟨he, _⟩ | ⟨he, _⟩
        · left; rw [h, he]
        · right; rw [h, he]; exact List.mem_cons_self z zs
      · right; exact List.mem_cons_of_mem z h

theorem pyMin_le_mem (l : List Int) (y : Int) (hy : y ∈ l) : pyMin l ≤ y := by
  cases l with
  | nil => cases hy
  | cons x xs =>
      rcases List.mem_cons.mp hy with h | h
      · subst h; exact foldl_min_le_init xs y
      · exact foldl_min_le_mem xs x y h

theorem mem_le_pyMax (l : List Int) (y : Int) (hy : y ∈ l) : y ≤ pyMax l := by
  cases l with
  | nil => cases hy
  | cons x xs =>
      rcases List.mem_cons.mp hy with h | h
      · subst h; exact init_le_foldl_max xs y
      · exact mem_le_foldl_max xs x y h

theorem pyMax_mem (l : List Int) (h : l ≠ []) : pyMax l ∈ l := by
  cases l with
  | nil => exact absurd rfl h
  | cons x xs =>
      rcases foldl_max_mem_or xs x with h' | h'
      · rw [show pyMax (x :: xs) = xs.foldl max x from rfl, h']
        exact List.mem_cons_self x xs
      · exact List.mem_cons_of_mem x h'

theorem pyMin_le_pyMax (l : List Int) (h : l ≠ []) : pyMin l ≤ pyMax l := by
  cases l with
  | nil => exact absurd rfl h
  | cons x xs =>
      exact le_trans (pyMin_le_mem (x :: xs) x (List.mem_cons_self x xs))
        (mem_le_pyMax (x :: xs) x (List.mem_cons_self x xs))

theorem bisectLeftAux_bounds (a : List Int) (x : Int) :
    ∀ fuel lo hi, lo ≤ hi →
      lo ≤ bisectLeftAux a x fuel lo hi ∧ bisectLeftAux a x fuel lo hi ≤ hi := by
  intro fuel
  induction fuel with
  | zero => intro lo hi h; exact ⟨le_refl lo, h⟩
  | succ n ih =>
      intro lo hi h
      simp only [bisectLeftAux]
      by_cases hlh : lo < hi
      · simp only [hlh, if_true]
        by_cases hm : a.getD ((lo + hi) / 2) 0 < x
        · simp only [hm, if_true]
          have := ih ((lo + hi) / 2 + 1) hi (by omega)
          omega
        · simp only [hm, if_false]
          have := ih lo ((lo + hi) / 2) (by omega)
          omega
      · simp only [hlh, if_false]
        exact ⟨le_refl lo, h⟩

/-- Characterization of the binary search: if every index below `k` holds a
value `< x` and every in-range index at or above `k` does not, the search
returns `k`. -/
theorem bisectLeftAux_char (a : List Int) (x : Int) (k : Nat)
    (h1 : ∀ i, i < k → a.getD i 0 < x)
    (h2 : ∀ i, k ≤ i → i < a.length → ¬ a.getD i 0 < x) :
    ∀ fuel lo hi, hi - lo ≤ fuel → lo ≤ k → k ≤ hi → hi ≤ a.length →
      bisectLeftAux a x fuel lo hi = k := by
  intro fuel
  induction fuel with
  | zero =>
      intro lo hi hf hlk hkh _
      simp only [bisectLeftAux]
      omega
  | succ n ih =>
      intro lo hi hf hlk hkh hha
      simp only [bisectLeftAux]
      by_cases hlh : lo < hi
      · simp only [hlh, if_true]
        by_cases hm : a.getD ((lo + hi) / 2) 0 < x
        · simp only [hm, if_true]
          have hmk : (lo + hi) / 2 < k := by
            by_contra hc
            exact h2 ((lo + hi) / 2) (by omega) (by omega) hm
          exact ih ((lo + hi) / 2 + 1) hi (by omega) (by omega) hkh hha
        · simp only [hm, if_false]
          have hkm : k ≤ (lo + hi) / 2 := by
            by_contra hc
            exact hm (h1 ((lo + hi) / 2) (by omega))
          exact ih lo ((lo + hi) / 2) (by omega) hlk hkm (by omega)
      · simp only [hlh, if_false]
        omega

theorem bisect_left_le_length (a : List Int) (x : Int) : bisect_left a x ≤ a.length :=
  (bisectLeftAux_bounds a x a.length 0 a.length (Nat.zero_le _)).2

/-- If `x` is a lower bound of the list, the insertion point is `0`. -/
theorem bisect_left_of_lower_bound (a : List Int) (x : Int) (h : ∀ y ∈ a, x ≤ y) :
    bisect_left a x = 0 := by
  apply bisectLeftAux_char a x 0
  · intro i hi; omega
  · intro i _ hil hlt
    rw [List.getD_eq_getElem a 0 hil] at hlt
    exact absurd hlt (not_lt.mpr (h a[i] (List.getElem_mem hil)))
  · exact le_refl _
  · exact Nat.zero_le _
  · exact Nat.zero_le _
  · exact le_refl _

/-- On a strictly increasing nonempty list, searching for the maximum (= last)
element returns `length - 1`. -/
theorem bisect_left_pyMax (a : List Int) (hne : a ≠ [])
    (hs : List.Pairwise (· < ·) a) :
    bisect_left a (pyMax a) = a.length - 1 := by
  have hlen : 0 < a.length := List.length_pos.mpr hne
  -- pyMax a is the last element
  have hmem := pyMax_mem a hne
  obtain ⟨j, hjl, hj⟩ := List.getElem_of_mem hmem
  have hgetlt : ∀ (i j : Nat) (hi : i < a.length) (hj : j < a.length),
      i < j → a[i] < a[j] := by
    intro i j hi hj hij
    exact List.pairwise_iff_getElem.mp hs i j hi hj hij
  have hlen1 : a.length - 1 < a.length := by omega
  have hlast : a[a.length - 1] ≤ pyMax a :=
    mem_le_pyMax a _ (List.getElem_mem hlen1)
  have hjval : j = a.length - 1 := by
    by_contra hc
    have := hgetlt j (a.length - 1) hjl hlen1 (by omega)
    rw [hj] at this
    omega
  have hmax_eq : a.getD (a.length - 1) 0 = pyMax a := by
    rw [List.getD_eq_getElem a 0 hlen1]
    subst hjval
    exact hj
  apply bisectLeftAux_char a (pyMax a) (a.length - 1)
  · intro i hi
    have hia : i < a.length := by omega
    rw [List.getD_eq_getElem a 0 hia]
    calc a[i] < a[a.length - 1] := hgetlt i (a.length - 1) hia hlen1 hi
      _ ≤ pyMax a := hlast
  · intro i hge hil
    have : i = a.length - 1 := by omega
    subst this
    rw [hmax_eq]
    exact lt_irrefl _
  · exact le_refl _
  · exact Nat.zero_le _
  · omega
  · exact le_refl _

/-- C1: the claim states the fill index range is `[-half+1, half]` for an even
axis voxel count and `[-half, half]` for an odd one (`half = size // 2`).
The code matches the claim on even axes (`n = 4` gives `-1:2`), but on an
odd axis (`n = 3`, `half = 1`) it writes `1:1` instead of `-1:1`: the
f-string for the odd branch omits the minus sign on the lower bound.  The
odd range spans a single lattice index while the fill list holds `n` entries
per axis, so the emitted deck is internally inconsistent; the code, not the
claim, is wrong. -/
theorem C1_phantom_fill_code :
    (phantomAxis 4 1).fillLo = -1 ∧ (phantomAxis 4 1).fillHi = 2 ∧
    (phantomAxis 3 1).fillLo = 1 ∧ (phantomAxis 3 1).fillHi = 1 ∧
    (phantomAxis 3 1).fillLo ≠ -((3 : ℤ) / 2) := by decide

/-- C2 counterexample: with boundaries `[-1000, 0, 3000]` (so
`len(boundaries) = 3`), the sample `5000` is clipped to `3000` but
classified with material index `2 = len - 1`, not `len = 3` as the claim
states (`bisect_left` of a sorted list at its maximum returns `len - 1`). -/
theorem C2_above_max_counterexample :
    convertHuToMaterial [-1000, 0, 3000] (clipArray [-1000, 0, 3000] [5000]) = [2] ∧
    (2 : Nat) ≠ 3 := by decide

/-- C2 (amended): for a nonempty threshold table, every sample strictly below
`min(boundaries)` is clipped to the minimum and classified with material
index 1, and every element of the Material-Index Volume lies in
`[1, len(boundaries)]`; but a sample strictly above `max(boundaries)` is
clipped to the maximum and classified with index `max 1 (len(boundaries) - 1)`
(for a strictly increasing table), not `len(boundaries)`. -/
theorem C2_classification_amended (hu : List Int) (hne : hu ≠ []) :
    (∀ v : Int, v < pyMin hu →
      clip v (pyMin hu) (pyMax hu) = pyMin hu ∧
      huToIndex hu (clip v (pyMin hu) (pyMax hu)) = 1) ∧
    (List.Pairwise (· < ·) hu → ∀ v : Int, pyMax hu < v →
      clip v (pyMin hu) (pyMax hu) = pyMax hu ∧
      huToIndex hu (clip v (pyMin hu) (pyMax hu)) = max 1 (hu.length - 1)) ∧
    (∀ arr : List Int, ∀ j ∈ convertHuToMaterial hu (clipArray hu arr),
      1 ≤ j ∧ j ≤ hu.length) := by
  have hlen : 0 < hu.length := List.length_pos.mpr hne
  have hminmax := pyMin_le_pyMax hu hne
  have hidx_bounds : ∀ v : Int, 1 ≤ huToIndex hu v ∧ huToIndex hu v ≤ hu.length := by
    intro v
    have hle := bisect_left_le_length hu v
    unfold huToIndex
    by_cases h0 : bisect_left hu v = 0
    · simp only [h0, if_true]
      omega
    · simp only [h0, if_false]
      omega
  refine ⟨?_, ?_, ?_⟩
  · intro v hv
    have hclip : clip v (pyMin hu) (pyMax hu) = pyMin hu := by
      unfold clip
      rw [max_eq_right (le_of_lt hv), min_eq_left hminmax]
    refine ⟨hclip, ?_⟩
    rw [hclip]
    have h0 : bisect_left hu (pyMin hu) = 0 :=
      bisect_left_of_lower_bound hu (pyMin hu) (fun y hy => pyMin_le_mem hu y hy)
    unfold huToIndex
    simp [h0]
  · intro hs v hv
    have hclip : clip v (pyMin hu) (pyMax hu) = pyMax hu := by
      unfold clip
      rw [max_eq_left (le_of_lt (lt_of_le_of_lt hminmax hv)),
        min_eq_right (le_of_lt hv)]
    refine ⟨hclip, ?_⟩
    rw [hclip]
    have hb : bisect_left hu (pyMax hu) = hu.length - 1 := bisect_left_pyMax hu hne hs
    unfold huToIndex
    rw [hb]
    by_cases h1 : hu.length = 1
    · simp [h1]
    · have : ¬ (hu.length - 1 = 0) := by omega
      simp only [this, if_false]
      omega
  · intro arr j hj
    obtain ⟨v, _, hv⟩ := List.mem_map.mp hj
    rw [← hv]
    exact hidx_bounds v

/-- Witness for C2: boundaries `[-1000, 0, 3000]`; the sample `-1500` (below
the minimum) is classified 1 and the sample `5000` (above the maximum) is
classified `max 1 (3 - 1) = 2`. -/
theorem C2_classification_witness :
    huToIndex [-1000, 0, 3000]
        (clip (-1500) (pyMin [-1000, 0, 3000]) (pyMax [-1000, 0, 3000])) = 1 ∧
    huToIndex [-1000, 0, 3000]
        (clip 5000 (pyMin [-1000, 0, 3000]) (pyMax [-1000, 0, 3000]))
      = max 1 (([-1000, 0, 3000] : List Int).length - 1) :=
  ⟨((C2_classification_amended [-1000, 0, 3000] (by decide)).1 (-1500) (by decide)).2,
   (((C2_classification_amended [-1000, 0, 3000] (by decide)).2.1 (by decide) 5000
      (by decide)).2)⟩

/-- C4 counterexample: with `size = (2,2,2)` and `spacing = (200,200,200)` the
world radius is `max(size*spacing) + 100 = 500`, but the even-parity phantom
extent on axis 0 is `(2+1)*200 = 600`, so the radius does not strictly
exceed every phantom-box extent. -/
theorem C4_world_margin_counterexample :
    ¬ ((phantomAxis 2 200).limit < worldRadius [2, 2, 2] [200, 200, 200]) := by
  unfold phantomAxis worldRadius qMax
  norm_num

/-- C4 (amended): the world sphere radius equals `max(size*spacing) + 100`, and
it strictly exceeds every phantom-box extent provided each spacing component
is positive and smaller than the fixed 100-unit margin (on an even axis the
exceedance is `100 - spacing`, not the full margin; for spacing at or above
100 it can fail, as the counterexample shows). -/
theorem C4_world_radius_amended (n0 n1 n2 : Nat) (s0 s1 s2 : ℚ)
    (h0 : 0 < s0) (h0m : s0 < 100) (h1 : 0 < s1) (h1m : s1 < 100)
    (h2 : 0 < s2) (h2m : s2 < 100) :
    worldRadius [n0, n1, n2] [s0, s1, s2]
      = qMax [(n0 : ℚ) * s0, (n1 : ℚ) * s1, (n2 : ℚ) * s2] + 100 ∧
    (phantomAxis n0 s0).limit < worldRadius [n0, n1, n2] [s0, s1, s2] ∧
    (phantomAxis n1 s1).limit < worldRadius [n0, n1, n2] [s0, s1, s2] ∧
    (phantomAxis n2 s2).limit < worldRadius [n0, n1, n2] [s0, s1, s2] := by
  have hzip : List.zipWith (fun (n : Nat) (s : ℚ) => (n : ℚ) * s) [n0, n1, n2] [s0, s1, s2]
      = [(n0 : ℚ) * s0, (n1 : ℚ) * s1, (n2 : ℚ) * s2] := rfl
  have hmax0 : (n0 : ℚ) * s0 ≤ qMax [(n0 : ℚ) * s0, (n1 : ℚ) * s1, (n2 : ℚ) * s2] :=
    init_le_foldl_max _ _
  have hmax1 : (n1 : ℚ) * s1 ≤ qMax [(n0 : ℚ) * s0, (n1 : ℚ) * s1, (n2 : ℚ) * s2] :=
    mem_le_foldl_max _ _ _ (by simp)
  have hmax2 : (n2 : ℚ) * s2 ≤ qMax [(n0 : ℚ) * s0, (n1 : ℚ) * s1, (n2 : ℚ) * s2] :=
    mem_le_foldl_max _ _ _ (by simp)
  have hlim : ∀ (n : Nat) (s : ℚ), 0 < s →
      (phantomAxis n s).limit ≤ (n : ℚ) * s + s := by
    intro n s hspos
    unfold phantomAxis
    by_cases hpar : n % 2 = 0
    · simp only [hpar, if_true]
      ring_nf
      exact le_refl _
    · simp only [hpar, if_false]
      nlinarith
  refine ⟨by rw [worldRadius, hzip], ?_, ?_, ?_⟩
  · have := hlim n0 s0 h0
    rw [worldRadius, hzip]
    linarith
  · have := hlim n1 s1 h1
    rw [worldRadius, hzip]
    linarith
  · have := hlim n2 s2 h2
    rw [worldRadius, hzip]
    linarith

/-- Witness for C4: `size = (2,3,4)`, `spacing = (1,1,1)`. -/
theorem C4_world_radius_witness :
    (phantomAxis 2 1).limit < worldRadius [2, 3, 4] [1, 1, 1] ∧
    (phantomAxis 3 1).limit < worldRadius [2, 3, 4] [1, 1, 1] ∧
    (phantomAxis 4 1).limit < worldRadius [2, 3, 4] [1, 1, 1] :=
  (C4_world_radius_amended 2 3 4 1 1 1 (by norm_num) (by norm_num) (by norm_num)
    (by norm_num) (by norm_num) (by norm_num)).2

/-- C9 counterexample: an image of size vector `(2, 3, 4)` yields arrays of
shape `(4, 3, 2)`, the size vector reversed, so the shape of the
Material-Index Volume does not equal the size vector in the axis order of
the size vector. -/
theorem C9_shape_counterexample :
    ¬ ((ctVoxelArrays ⟨[2, 3, 4], [1, 1, 1], List.replicate 24 0, rfl⟩ [0]).2.shape
      = [2, 3, 4]) := by decide

/-- C9 (amended): the Material-Index Volume and the clipped Intensity Volume
always share shape (and element count), and that shape is the size vector
of the source image reversed, i.e. the voxel counts per axis read from the
last axis to the first (numpy (z, y, x) order), not in the own order of the
size vector. -/
theorem C9_shape_amended (ct : CTImage) (hu : List Int) :
    (ctVoxelArrays ct hu).1.shape = (ctVoxelArrays ct hu).2.shape ∧
    (ctVoxelArrays ct hu).2.shape = ct.size.reverse ∧
    (ctVoxelArrays ct hu).1.data.length = (ctVoxelArrays ct hu).2.data.length := by
  refine ⟨rfl, rfl, ?_⟩
  simp [ctVoxelArrays, convertNp, clipNp, convertHuToMaterial, clipArray]

theorem digitChar_not_ws (d : Nat) : isWS (digitChar d) = false := by
  unfold digitChar
  rcases Nat.lt_or_ge d 10 with h | h
  · interval_cases d <;> decide
  · rw [List.getD_eq_default _ _ (by simpa using h)]
    decide

theorem digitChar_toNat (d : Nat) (h : d < 10) : (digitChar d).toNat - 48 = d := by
  unfold digitChar
  interval_cases d <;> decide

theorem natDigitsRev_lt10 : ∀ fuel n, n ≤ fuel → ∀ d ∈ natDigitsRev fuel n, d < 10 := by
  intro fuel
  induction fuel with
  | zero =>
      intro n hn d hd
      have hn0 : n = 0 := by omega
      subst hn0
      simp only [natDigitsRev, List.mem_singleton] at hd
      omega
  | succ m ih =>
      intro n hn d hd
      by_cases h10 : n < 10
      · simp only [natDigitsRev, h10, if_true, List.mem_singleton] at hd
        omega
      · simp only [natDigitsRev, h10, if_false, List.mem_cons] at hd
        rcases hd with h | h
        · omega
        · have hdiv : n / 10 ≤ m := by
            have := Nat.div_lt_self (show 0 < n by omega) (show 1 < 10 by omega)
            omega
          exact ih (n / 10) hdiv d h

theorem natDigitsRev_val : ∀ fuel n, n ≤ fuel → ofDigitsRev (natDigitsRev fuel n) = n := by
  intro fuel
  induction fuel with
  | zero =>
      intro n hn
      have hn0 : n = 0 := by omega
      subst hn0
      rfl
  | succ m ih =>
      intro n hn
      by_cases h10 : n < 10
      · simp [natDigitsRev, h10, ofDigitsRev]
      · have hdiv : n / 10 ≤ m := by
          have := Nat.div_lt_self (show 0 < n by omega) (show 1 < 10 by omega)
          omega
        simp only [natDigitsRev, h10, if_false, ofDigitsRev, List.foldr_cons]
        have := ih (n / 10) hdiv
        unfold ofDigitsRev at this
        rw [this]
        omega

theorem natDigitsRev_ne_nil (fuel n : Nat) : natDigitsRev fuel n ≠ [] := by
  cases fuel with
  | zero => simp [natDigitsRev]
  | succ m =>
      unfold natDigitsRev
      split <;> simp

theorem natRepr_ne_nil (n : Nat) : natRepr n ≠ [] := by
  unfold natRepr
  simp only [ne_eq, List.map_eq_nil_iff, List.reverse_eq_nil_iff]
  exact natDigitsRev_ne_nil n n

theorem natRepr_not_ws (n : Nat) : ∀ c ∈ natRepr n, isWS c = false := by
  intro c hc
  obtain ⟨d, _, hd⟩ := List.mem_map.mp hc
  rw [← hd]
  exact digitChar_not_ws d

theorem ofDigitsRev_append_single (L : List Nat) (d : Nat) :
    ofDigitsRev (L ++ [d]) = ofDigitsRev L + d * 10 ^ L.length := by
  induction L with
  | nil => simp [ofDigitsRev]
  | cons x xs ih =>
      simp only [List.cons_append, ofDigitsRev, List.foldr_cons, List.length_cons] at *
      rw [ih]
      ring

theorem foldl_digits_val (M : List Nat) : ∀ acc : Nat,
    M.foldl (fun a d => a * 10 + d) acc = acc * 10 ^ M.length + ofDigitsRev M.reverse := by
  induction M with
  | nil => intro acc; simp [ofDigitsRev]
  | cons d M ih =>
      intro acc
      simp only [List.foldl_cons, List.reverse_cons, List.length_cons]
      rw [ih (acc * 10 + d), ofDigitsRev_append_single, List.length_reverse]
      ring

theorem foldl_digitChar (M : List Nat) : ∀ acc : Nat, (∀ d ∈ M, d < 10) →
    M.foldl (fun a d => a * 10 + ((digitChar d).toNat - 48)) acc
      = M.foldl (fun a d => a * 10 + d) acc := by
  induction M with
  | nil => intro acc _; rfl
  | cons d M ih =>
      intro acc h
      simp only [List.foldl_cons]
      rw [digitChar_toNat d (h d (List.mem_cons_self d M))]
      exact ih _ (fun x hx => h x (List.mem_cons_of_mem d hx))

/-- Python `str` followed by integer parsing is the identity on naturals. -/
theorem parseNat_natRepr (n : Nat) : parseNat (natRepr n) = n := by
  unfold parseNat natRepr
  rw [List.foldl_map]
  have hlt : ∀ d ∈ (natDigitsRev n n).reverse, d < 10 := by
    intro d hd
    exact natDigitsRev_lt10 n n (le_refl n) d (List.mem_reverse.mp hd)
  rw [foldl_digitChar _ 0 hlt, foldl_digits_val, List.reverse_reverse]
  simp [natDigitsRev_val n n (le_refl n)]

theorem length_dropWhile_le {α : Type} (p : α → Bool) (l : List α) :
    (l.dropWhile p).length ≤ l.length := by
  induction l with
  | nil => simp
  | cons x xs ih =>
      rw [List.dropWhile_cons]
      split
      · exact le_trans ih (Nat.le_succ _)
      · exact le_refl _

theorem tokenize_nil : tokenize [] = [] := by
  rw [tokenize]

theorem tokenize_cons_ws (c : Char) (rest : List Char) (h : isWS c = true) :
    tokenize (c :: rest) = tokenize rest := by
  rw [tokenize, if_pos h]

theorem tokenize_cons_not_ws (c : Char) (rest : List Char) (h : isWS c = false) :
    tokenize (c :: rest)
      = (c :: rest.takeWhile (fun d => !isWS d))
        :: tokenize (rest.dropWhile (fun d => !isWS d)) := by
  rw [tokenize, if_neg (by simp [h])]

theorem takeWhile_append_all {α : Type} (p : α → Bool) (l r : List α)
    (h : ∀ c ∈ l, p c = true) :
    (l ++ r).takeWhile p = l ++ r.takeWhile p := by
  induction l with
  | nil => simp
  | cons x xs ih =>
      rw [List.cons_append, List.takeWhile_cons, if_pos (h x (List.mem_cons_self x xs)),
        ih (fun c hc => h c (List.mem_cons_of_mem x hc))]
      rfl

theorem dropWhile_append_all {α : Type} (p : α → Bool) (l r : List α)
    (h : ∀ c ∈ l, p c = true) :
    (l ++ r).dropWhile p = r.dropWhile p := by
  induction l with
  | nil => simp
  | cons x xs ih =>
      rw [List.cons_append, List.dropWhile_cons, if_pos (h x (List.mem_cons_self x xs))]
      exact ih (fun c hc => h c (List.mem_cons_of_mem x hc))

theorem tokenize_ws_append (w r : List Char) (h : ∀ c ∈ w, isWS c = true) :
    tokenize (w ++ r) = tokenize r := by
  induction w with
  | nil => rfl
  | cons c cs ih =>
      rw [List.cons_append, tokenize_cons_ws c _ (h c (List.mem_cons_self c cs))]
      exact ih (fun d hd => h d (List.mem_cons_of_mem c hd))

/-- A maximal non-whitespace token followed by whitespace (or nothing) is cut
off as one token. -/
theorem tokenize_token_append (tok r : List Char) (hne : tok ≠ [])
    (htok : ∀ c ∈ tok, isWS c = false)
    (hr : r = [] ∨ ∃ c t, r = c :: t ∧ isWS c = true) :
    tokenize (tok ++ r) = tok :: tokenize r := by
  cases tok with
  | nil => exact absurd rfl hne
  | cons c cs =>
      rw [List.cons_append,
        tokenize_cons_not_ws c _ (htok c (List.mem_cons_self c cs))]
      have hcs : ∀ d ∈ cs, (fun d => !isWS d) d = true := by
        intro d hd
        simp [htok d (List.mem_cons_of_mem c hd)]
      have hrt : r.takeWhile (fun d => !isWS d) = [] := by
        rcases hr with h | ⟨c', t, rfl, hws⟩
        · subst h; rfl
        · rw [List.takeWhile_cons, if_neg (by simp [hws])]
      have hrd : r.dropWhile (fun d => !isWS d) = r := by
        rcases hr with h | ⟨c', t, rfl, hws⟩
        · subst h; rfl
        · rw [List.dropWhile_cons, if_neg (by simp [hws])]
      rw [takeWhile_append_all _ cs r hcs, dropWhile_append_all _ cs r hcs, hrt, hrd,
        List.append_nil]

theorem sepAfter_ws (acc total : Nat) : ∀ c ∈ sepAfter acc total, isWS c = true := by
  intro c hc
  unfold sepAfter at hc
  split at hc
  · simp only [List.mem_cons] at hc
    rcases hc with rfl | rfl | rfl | rfl | rfl | hfalse
    · rfl
    · rfl
    · rfl
    · rfl
    · rfl
    · cases hfalse
  · split at hc
    · simp only [List.mem_singleton] at hc
      subst hc; rfl
    · split at hc
      · simp only [List.mem_singleton] at hc
        subst hc; rfl
      · cases hc

theorem sep_fill_headWS (total acc : Nat) (rest : List Nat) :
    sepAfter acc total ++ fillGo total rest (acc + 1) = [] ∨
    ∃ c t, sepAfter acc total ++ fillGo total rest (acc + 1) = c :: t ∧ isWS c = true := by
  cases hsep : sepAfter acc total with
  | cons c cs =>
      right
      refine ⟨c, cs ++ fillGo total rest (acc + 1), by simp, ?_⟩
      exact sepAfter_ws acc total c (by rw [hsep]; exact List.mem_cons_self c cs)
  | nil =>
      simp only [List.nil_append]
      cases rest with
      | nil => left; rfl
      | cons v r => right; exact ⟨' ', _, rfl, rfl⟩

theorem tokenize_fillGo (vs : List Nat) : ∀ acc total,
    tokenize (fillGo total vs acc) = vs.map natRepr := by
  induction vs with
  | nil => intro acc total; exact tokenize_nil
  | cons v rest ih =>
      intro acc total
      show tokenize (' ' :: (natRepr v ++ (sepAfter acc total ++ fillGo total rest (acc + 1))))
        = _
      rw [tokenize_cons_ws ' ' _ rfl,
        tokenize_token_append (natRepr v) _ (natRepr_ne_nil v) (natRepr_not_ws v)
          (sep_fill_headWS total acc rest),
        tokenize_ws_append _ _ (sepAfter_ws acc total), ih (acc + 1) total]
      rfl

/-- C3: flattening the Material-Index Volume in the C traversal order of the
array and re-parsing the emitted fill-list text (splitting on whitespace
across line wraps and reading each token as a decimal integer) reproduces
exactly the flattened integer sequence. -/
theorem C3_fill_roundtrip (vs : List Nat) :
    (tokenize (fillListText vs)).map parseNat = vs := by
  unfold fillListText
  rw [tokenize_fillGo vs 1 vs.length, List.map_map]
  have h : parseNat ∘ natRepr = id := funext parseNat_natRepr
  rw [h, List.map_id]

theorem exceptOk_exists {ε α : Type} (e : Except ε α) :
    exceptOk e = true ↔ ∃ v, e = Except.ok v := by
  cases e <;> simp [exceptOk]

theorem pyIndex_ok {α : Type} (l : List α) (i : Nat) (h : i < l.length) :
    pyIndex l i = Except.ok l[i] := by
  unfold pyIndex
  rw [List.getElem?_eq_getElem h]

theorem exceptOk_ok {ε α : Type} (v : α) : exceptOk (@Except.ok ε α v) = true := rfl

theorem exceptOk_error {ε α : Type} (e : ε) : exceptOk (@Except.error ε α e) = false := rfl

theorem geometryInit_ok_iff (size : List Nat) (spacing : List ℚ) :
    exceptOk (geometryInit size spacing) = true ↔
      (3 ≤ size.length ∧ 3 ≤ spacing.length ∧ size.length = spacing.length) := by
  rcases spacing with _ | ⟨a, _ | ⟨b, _ | ⟨c, sp⟩⟩⟩ <;>
    rcases size with _ | ⟨p, _ | ⟨q, _ | ⟨r, sz⟩⟩⟩ <;>
      simp [geometryInit, pyIndex, Bind.bind, Except.bind, npBroadcastOk,
        apply_ite exceptOk, exceptOk_ok, exceptOk_error]

theorem geometryInit_short_err (size : List Nat) (spacing : List ℚ)
    (h : size.length < 3 ∨ spacing.length < 3) :
    geometryInit size spacing = Except.error PyErr.indexError := by
  rcases spacing with _ | ⟨a, _ | ⟨b, _ | ⟨c, sp⟩⟩⟩ <;>
    rcases size with _ | ⟨p, _ | ⟨q, _ | ⟨r, sz⟩⟩⟩ <;>
      first
        | (simp [geometryInit, pyIndex, Bind.bind, Except.bind]; done)
        | (simp only [List.length_cons] at h; omega)

theorem geometryInit_mismatch_err (size : List Nat) (spacing : List ℚ)
    (h3 : 3 ≤ size.length) (h3s : 3 ≤ spacing.length)
    (hne : size.length ≠ spacing.length) :
    geometryInit size spacing = Except.error PyErr.valueError := by
  rcases spacing with _ | ⟨a, _ | ⟨b, _ | ⟨c, sp⟩⟩⟩ <;>
    rcases size with _ | ⟨p, _ | ⟨q, _ | ⟨r, sz⟩⟩⟩ <;>
      first
        | (simp only [List.length_cons, List.length_nil] at h3 h3s; omega)
        | (simp only [geometryInit, pyIndex, Bind.bind, Except.bind,
             List.getElem?_cons_zero, List.getElem?_cons_succ]
           rw [if_neg]
           simp only [npBroadcastOk, List.length_cons, decide_eq_true_eq]
           simp only [List.length_cons] at hne
           omega)

theorem parseMaterialAux_missing_density (mat : List (Nat × MaterialEntry))
    (hfields : ∀ p ∈ mat, p.2.hu_interval.isSome = true ∧ p.2.nucleon.isSome = true
      ∧ p.2.fraction.isSome = true)
    (hmiss : ∃ p ∈ mat, p.2.density = none) :
    parseMaterialAux mat = Except.error PyErr.keyError := by
  induction mat with
  | nil => obtain ⟨p, hp, _⟩ := hmiss; cases hp
  | cons x rest ih =>
      obtain ⟨i, m⟩ := x
      obtain ⟨h1, h2, h3⟩ := hfields (i, m) (List.mem_cons_self _ _)
      obtain ⟨hu, hhu⟩ := Option.isSome_iff_exists.mp h1
      obtain ⟨nuc, hnuc⟩ := Option.isSome_iff_exists.mp h2
      obtain ⟨fr, hfr⟩ := Option.isSome_iff_exists.mp h3
      have hhu' : m.hu_interval = some hu := hhu
      have hnuc' : m.nucleon = some nuc := hnuc
      have hfr' : m.fraction = some fr := hfr
      cases hd : m.density with
      | none =>
          simp [parseMaterialAux, hhu', hnuc', hfr', hd, pyGet, Bind.bind, Except.bind]
      | some d =>
          have hmiss' : ∃ p ∈ rest, p.2.density = none := by
            obtain ⟨p, hp, hpd⟩ := hmiss
            rcases List.mem_cons.mp hp with heq | hp'
            · rw [heq] at hpd
              have hpd' : m.density = none := hpd
              rw [hd] at hpd'
              cases hpd'
            · exact ⟨p, hp', hpd⟩
          have ihr := ih (fun p hp => hfields p (List.mem_cons_of_mem _ hp)) hmiss'
          simp [parseMaterialAux, hhu', hnuc', hfr', hd, pyGet, Bind.bind, Except.bind, ihr]

theorem parseMaterialAux_all_ok (mat : List (Nat × MaterialEntry))
    (hfields : ∀ p ∈ mat, p.2.hu_interval.isSome = true ∧ p.2.nucleon.isSome = true
      ∧ p.2.fraction.isSome = true ∧ p.2.density.isSome = true) :
    exceptOk (parseMaterialAux mat) = true := by
  induction mat with
  | nil => rfl
  | cons x rest ih =>
      obtain ⟨i, m⟩ := x
      obtain ⟨h1, h2, h3, h4⟩ := hfields (i, m) (List.mem_cons_self _ _)
      obtain ⟨hu, hhu⟩ := Option.isSome_iff_exists.mp h1
      obtain ⟨nuc, hnuc⟩ := Option.isSome_iff_exists.mp h2
      obtain ⟨fr, hfr⟩ := Option.isSome_iff_exists.mp h3
      obtain ⟨d, hd⟩ := Option.isSome_iff_exists.mp h4
      have hhu' : m.hu_interval = some hu := hhu
      have hnuc' : m.nucleon = some nuc := hnuc
      have hfr' : m.fraction = some fr := hfr
      have hd' : m.density = some d := hd
      have hih := ih (fun p hp => hfields p (List.mem_cons_of_mem _ hp))
      cases hrest : parseMaterialAux rest with
      | error e => rw [hrest] at hih; simp [exceptOk] at hih
      | ok r =>
          simp [parseMaterialAux, hhu', hnuc', hfr', hd', hrest, pyGet,
            Bind.bind, Except.bind, exceptOk]

/-- C8 counterexample: the builder accepts a spacing vector with a
non-positive (zero) component, and also accepts length-4 size and spacing
vectors, without raising any error, contradicting the claim that such
inputs are rejected with a dimensionality error. -/
theorem C8_no_validation_counterexample :
    exceptOk (geometryInit [1, 1, 1] [0, 1, 1]) = true ∧
    exceptOk (geometryInit [1, 1, 1, 1] [1, 1, 1, 1]) = true := by decide

/-- C8 (amended): the builder performs no explicit validation.  A size or
spacing vector with fewer than 3 components raises an IndexError from the
component accesses; with both lengths at least 3 but unequal, the numpy
product in `_build_world_surface` raises a broadcast ValueError; equal-length
vectors of length at least 3 are accepted silently, non-positive spacings
and extra components included.  Construction succeeds exactly when both
vectors have at least 3 components and equal lengths. -/
theorem C8_init_ok_iff_amended (size : List Nat) (spacing : List ℚ) :
    (exceptOk (geometryInit size spacing) = true ↔
      (3 ≤ size.length ∧ 3 ≤ spacing.length ∧ size.length = spacing.length)) ∧
    (size.length < 3 ∨ spacing.length < 3 →
      geometryInit size spacing = Except.error PyErr.indexError) ∧
    (3 ≤ size.length → 3 ≤ spacing.length → size.length ≠ spacing.length →
      geometryInit size spacing = Except.error PyErr.valueError) :=
  ⟨geometryInit_ok_iff size spacing, geometryInit_short_err size spacing,
   geometryInit_mismatch_err size spacing⟩

/-- Witness for C8: a length-2 spacing vector raises IndexError, and a
length-4 spacing with a length-3 size raises the broadcast ValueError. -/
theorem C8_init_ok_iff_witness :
    geometryInit [1, 1, 1] [1, 1] = Except.error PyErr.indexError ∧
    geometryInit [1, 1, 1] [1, 1, 1, 1] = Except.error PyErr.valueError :=
  ⟨(C8_init_ok_iff_amended [1, 1, 1] [1, 1]).2.1 (Or.inr (by decide)),
   (C8_init_ok_iff_amended [1, 1, 1] [1, 1, 1, 1]).2.2 (by decide) (by decide) (by decide)⟩

/-- C6: a material entry whose `density` key is missing from the
configuration (so the density table has no entry for a material index the
geometry cells reference) makes the run fail with a KeyError (the
MaterialKeyError of the spec).  The failure happens inside `_parse_material`
during `init_MC_module`, before `to_file` ever opens the deck file, so the
written output is empty. -/
theorem C6_missing_density_aborts (ct : CTImage) (cfg : Config)
    (mat : List (Nat × MaterialEntry)) (md : List String)
    (hm : cfg.material = some mat) (hmo : cfg.mode = some md)
    (hfields : ∀ p ∈ mat, p.2.hu_interval.isSome = true ∧ p.2.nucleon.isSome = true
      ∧ p.2.fraction.isSome = true)
    (hmiss : ∃ p ∈ mat, p.2.density = none) :
    mcnpRun ct cfg = ("", some PyErr.keyError) := by
  have hparse := parseMaterialAux_missing_density mat hfields hmiss
  have hinit : initMCModule ct cfg = Except.error PyErr.keyError := by
    unfold initMCModule
    rw [hm, hmo]
    simp [ctVoxelInit, parseMaterial, hparse, Bind.bind, Except.bind]
  simp [mcnpRun, hinit]

/-- Witness for C6: the concrete config whose single material lacks
`density`. -/
theorem C6_missing_density_witness :
    (∃ p ∈ [(1, matEntryNoDensity)], p.2.density = none) ∧
    mcnpRun ctEx cfgMissingDensity = ("", some PyErr.keyError) :=
  ⟨⟨(1, matEntryNoDensity), List.mem_singleton.mpr rfl, rfl⟩,
   C6_missing_density_aborts ctEx cfgMissingDensity [(1, matEntryNoDensity)] ["p"] rfl rfl
     (by
       intro p hp
       rcases List.mem_singleton.mp hp with rfl
       exact ⟨rfl, rfl, rfl⟩)
     ⟨(1, matEntryNoDensity), List.mem_singleton.mpr rfl, rfl⟩⟩

/-- C7: `init_MC_module` fails with an AssertionError (the ConfigurationError
of the spec) when `material` or `mode` is absent; when both are present and
the optional `source`/`tally`/`outcontrol` keys are absent, they default to
the absent (None) section (the Source starts as the bare SDEF state built
from None, the Tally is off, the out-control text empty) and initialization
proceeds to a built module state. -/
theorem C7_config_validation (ct : CTImage) (cfg : Config) :
    (cfg.material = none ∨ cfg.mode = none →
      initMCModule ct cfg = Except.error PyErr.assertionError) ∧
    (∀ mat md, cfg.material = some mat → cfg.mode = some md →
      cfg.source = none → cfg.tally = none → cfg.outcontrol = none →
      (∀ p ∈ mat, p.2.hu_interval.isSome = true ∧ p.2.nucleon.isSome = true
        ∧ p.2.fraction.isSome = true ∧ p.2.density.isSome = true) →
      3 ≤ ct.size.length → 3 ≤ ct.spacingRaw.length →
      ∃ st, initMCModule ct cfg = Except.ok st ∧
        st.sourceSt = sourceInit none ∧ st.tallySt = TallyState.off ∧
        st.outText = "") := by
  constructor
  · intro h
    unfold initMCModule
    rcases h with h | h
    · rw [h]
    · rw [h]
      cases cfg.material <;> rfl
  · intro mat md hmat hmode hsrc htal hout hfields hsz hsp
    obtain ⟨r, hr⟩ := (exceptOk_exists _).mp (parseMaterialAux_all_ok mat hfields)
    have hvox : ctVoxelInit ct mat = Except.ok
        { arr := clipNp (dedupFirst r.1) (getArrayFromImage ct)
          index_map := convertNp (dedupFirst r.1)
            (clipNp (dedupFirst r.1) (getArrayFromImage ct))
          spacing := ct.spacingRaw.map (fun sp => around3 (sp / 20))
          size := ct.size
          tables := { hu_interval := dedupFirst r.1, element_table := r.2.1,
                      density_table := r.2.2.1, keys := r.2.2.2 } } := by
      simp [ctVoxelInit, parseMaterial, hr, Bind.bind, Except.bind]
    have hglen : 3 ≤ (ct.spacingRaw.map (fun sp => around3 (sp / 20))).length := by
      rw [List.length_map]
      exact hsp
    have hgeq : ct.size.length = (ct.spacingRaw.map (fun sp => around3 (sp / 20))).length := by
      rw [List.length_map]
      exact ct.sameDim
    obtain ⟨g, hg⟩ := (exceptOk_exists _).mp
      ((geometryInit_ok_iff ct.size (ct.spacingRaw.map (fun sp => around3 (sp / 20)))).mpr
        ⟨hsz, hglen, hgeq⟩)
    unfold initMCModule
    rw [hmat, hmode, hsrc, htal, hout]
    simp only [hvox, geometryBuild, hg, Bind.bind, Except.bind, tallyInit, outControlText]
    exact ⟨_, rfl, rfl, rfl, rfl⟩

/-- Witness for C7: a config missing `mode` raises AssertionError, and the
complete config with absent optional keys initializes with the default
(None-built) sections. -/
theorem C7_config_validation_witness :
    initMCModule ctEx cfgMissingMode = Except.error PyErr.assertionError ∧
    (∃ st, initMCModule ctEx cfgNoSourceTally = Except.ok st ∧
      st.sourceSt = sourceInit none ∧ st.tallySt = TallyState.off ∧
      st.outText = "") :=
  ⟨(C7_config_validation ctEx cfgMissingMode).1 (Or.inr rfl),
   (C7_config_validation ctEx cfgNoSourceTally).2 [(1, matEntryEx)] ["p"] rfl rfl rfl rfl rfl
     (by
       intro p hp
       rcases List.mem_singleton.mp hp with rfl
       exact ⟨rfl, rfl, rfl, rfl⟩)
     (by decide) (by decide)⟩

/-- C5: the claim says generation succeeds with an SDEF block and no fmesh
block.  The code instead crashes: with an absent `source` key,
`Source.__init__` returns early without ever assigning `si_sp_str`
(`generator.py:216-217`), but `Source.to_file` unconditionally reads that
attribute (`generator.py:231`), raising AttributeError after only the
sections up to `SDEF` have been written; the early return that forgets to
initialize the attribute is a slip, and the spec describes the evident
intent. -/
theorem C5_absent_source_crash :
    (mcnpRun ctEx cfgNoSourceTally).2 = some PyErr.attributeError := by rfl

theorem strDataAppend (s t : String) : (s ++ t).data = s.data ++ t.data := rfl

theorem startsWithCL_ne_first (p c : Char) (ps cs : List Char) (h : (p == c) = false) :
    startsWithCL (p :: ps) (c :: cs) = false := by
  simp [startsWithCL, h]

theorem startsWithCL_self_append (p r : List Char) : startsWithCL p (p ++ r) = true := by
  induction p with
  | nil => rfl
  | cons c cs ih => simp [startsWithCL, ih]

theorem isDeDfHeader_fmesh (x : String) : isDeDfHeader ("fmesh" ++ x) = false := by
  unfold isDeDfHeader
  rw [strDataAppend]
  exact startsWithCL_ne_first '#' 'f' _ _ (by decide)

theorem isDeDfHeader_imesh (x : String) : isDeDfHeader ("     imesh=" ++ x) = false := by
  unfold isDeDfHeader
  rw [strDataAppend]
  exact startsWithCL_ne_first '#' ' ' _ _ (by decide)

theorem isDeDfHeader_jmesh (x : String) : isDeDfHeader ("     jmesh=" ++ x) = false := by
  unfold isDeDfHeader
  rw [strDataAppend]
  exact startsWithCL_ne_first '#' ' ' _ _ (by decide)

theorem isDeDfHeader_kmesh (x : String) : isDeDfHeader ("     kmesh=" ++ x) = false := by
  unfold isDeDfHeader
  rw [strDataAppend]
  exact startsWithCL_ne_first '#' ' ' _ _ (by decide)

theorem isDeDfHeader_FM (x : String) : isDeDfHeader ("FM" ++ x) = false := by
  unfold isDeDfHeader
  rw [strDataAppend]
  exact startsWithCL_ne_first '#' 'F' _ _ (by decide)

theorem isDeDfHeader_parseDeDf (de df : List PyAtom) (idStr : String) :
    isDeDfHeader (parseDeDf de df idStr) = true := by
  unfold isDeDfHeader parseDeDf
  rw [strDataAppend]
  exact startsWithCL_self_append _ _

/-- C10: the chunks the Tally writer emits for one entry contain a DE/DF
energy-response block (a line starting with the DE/DF header) if and only
if the entry has both the de and the df keys; an entry with only one of the
two contributes no DE/DF lines. -/
theorem C10_dedf_iff (size : List Nat) (origin limit : List ℚ) (id : Nat) (v : TallyEntry) :
    (tallyEntryChunks size origin limit id v).any isDeDfHeader
      = (v.de.isSome && v.df.isSome) := by
  unfold tallyEntryChunks
  cases hde : v.de <;> cases hdf : v.df <;> cases hfm : v.fm <;>
    simp [List.any_append, List.any_cons, List.any_nil, isDeDfHeader_fmesh,
      isDeDfHeader_imesh, isDeDfHeader_jmesh, isDeDfHeader_kmesh, isDeDfHeader_FM,
      isDeDfHeader_parseDeDf]

end CT2MCNP
